import Mathlib

/-!
Shallow embedding of the API-potluck key-manager and user-data-manager
modules (admission control, daily quota, bonus ledger, reconciliation).

Key manager (`key-manager.js`): the key table is an in-memory object
keyed by the API-key string.  We model it as a function from strings to
optional key records; the ambient clock is passed explicitly (`today`
as the `YYYY-MM-DD` string the code derives from the clock, ISO
timestamps as strings, millisecond instants as integers).

User-data manager (`user-data-manager.js`): per-tenant credentials and
bonus grants.  ISO timestamps compared via `new Date(...)` are modelled
as integer milliseconds.
-/

/-- A stored API key record (`keyData` in `key-manager.js`). -/
structure KeyData where
  id : String
  name : String
  createdAt : String
  dailyLimit : Nat
  todayUsage : Nat
  totalUsage : Nat
  lastResetDate : String
  lastUsedAt : Option String
  enabled : Bool
  bonusRemaining : Nat
  deriving Repr, DecidableEq

/-- The in-memory key table `keyStore.keys`, keyed by the API-key string. -/
def KeyStore := String → Option KeyData

/-- Point update of the key table (in-place mutation of `keyStore.keys[k]`). -/
def updateKey (s : KeyStore) (k : String) (kd : KeyData) : KeyStore :=
  fun k' => if k' = k then some kd else s k'

/-- `checkAndResetDailyCount`: lazy daily reset, applied on touch.
Mirrors `if (keyData.lastResetDate !== today) { todayUsage = 0; lastResetDate = today }`. -/
def checkAndResetDailyCount (today : String) (kd : KeyData) : KeyData :=
  if kd.lastResetDate ≠ today then
    { kd with todayUsage := 0, lastResetDate := today }
  else kd

/-- Result of `validateKey` (the JS object `{valid, reason?, keyData?, useBonus?, bonusRemaining?}`). -/
inductive ValidateResult where
  | invalidFormat
  | notFound
  | disabled
  | validDaily (keyData : KeyData)
  | validBonus (keyData : KeyData) (bonusRemaining : Nat)
  | quotaExceeded (keyData : KeyData)
  deriving Repr, DecidableEq

/-- The format check `apiKey.startsWith(KEY_PREFIX)` with the constant
`'maki_'`, stated over the string's character list.  The JS falsy check
`!apiKey` is subsumed: the empty string has no `maki_` marker. -/
def startsWithMaki (apiKey : String) : Bool :=
  "maki_".data.isPrefixOf apiKey.data

/-- `validateKey` from `key-manager.js`.  The store is returned as well
because `checkAndResetDailyCount(keyData)` mutates the stored record in
place before the quota checks. -/
def validateKey (today : String) (s : KeyStore) (apiKey : String) :
    ValidateResult × KeyStore :=
  if ¬ startsWithMaki apiKey then (.invalidFormat, s)
  else
    match s apiKey with
    | none => (.notFound, s)
    | some kd =>
      if ¬ kd.enabled then (.disabled, s)
      else
        let kd1 := checkAndResetDailyCount today kd
        let s1 := updateKey s apiKey kd1
        if kd1.todayUsage < kd1.dailyLimit then (.validDaily kd1, s1)
        else if 0 < kd1.bonusRemaining then (.validBonus kd1 kd1.bonusRemaining, s1)
        else (.quotaExceeded kd1, s1)

/-- The admission decision carried by a `validateKey` result, with the
record payloads stripped. -/
inductive AdmissionDecision where
  | invalidFormat
  | notFound
  | disabled
  | admitDaily
  | admitBonus
  | quotaExceeded
  deriving Repr, DecidableEq

/-- Classification of a `validateKey` result. -/
def decisionOf : ValidateResult → AdmissionDecision
  | .invalidFormat => .invalidFormat
  | .notFound => .notFound
  | .disabled => .disabled
  | .validDaily _ => .admitDaily
  | .validBonus _ _ => .admitBonus
  | .quotaExceeded _ => .quotaExceeded

/-- Modelled from the spec's words (admission taxonomy, §4.2/§4.4/§8):
`invalid_format` when the key does not carry the `maki_` prefix;
`not_found` when no stored key has that id; `disabled` whenever the
key's enabled flag is false, regardless of remaining quota; admit via
the daily pool when, after the lazy reset, `todayUsage < dailyLimit`;
admit via bonus when the daily pool is exhausted and the cached
`bonusRemaining` is positive; `quota_exceeded` when both pools are
exhausted. -/
def specAdmissionDecision (today : String) (s : KeyStore) (apiKey : String) :
    AdmissionDecision :=
  if ¬ startsWithMaki apiKey then .invalidFormat
  else
    match s apiKey with
    | none => .notFound
    | some kd =>
      if ¬ kd.enabled then .disabled
      else
        let kd1 := checkAndResetDailyCount today kd
        if kd1.todayUsage < kd1.dailyLimit then .admitDaily
        else if 0 < kd1.bonusRemaining then .admitBonus
        else .quotaExceeded

/-! ## Bonus ledger (`user-data-manager.js`) -/

/-- Quota/bonus configuration (`getBonusConfig()`), hot-reloadable. -/
structure BonusConfig where
  bonusPerCredential : Nat
  bonusValidityDays : Nat
  deriving Repr, DecidableEq

/-- A contributed credential entry in a tenant's `credentials` list. -/
structure Credential where
  id : String
  path : String
  provider : String
  authMethod : String
  addedAt : String
  deriving Repr, DecidableEq

/-- A bonus grant in a tenant's `credentialBonuses` list.  `grantedAt`
is the ISO timestamp, modelled as integer milliseconds since epoch. -/
structure BonusGrant where
  credentialId : String
  grantedAt : Int
  usedCount : Nat
  deriving Repr, DecidableEq

/-- One tenant's record in `userDataStore.users`. -/
structure UserData where
  credentials : List Credential
  credentialBonuses : List BonusGrant
  deriving Repr, DecidableEq

/-- The tenant table `userDataStore.users`, keyed by API key. -/
def Users := String → Option UserData

/-- Point update of the tenant table. -/
def updateUser (us : Users) (k : String) (ud : UserData) : Users :=
  fun k' => if k' = k then some ud else us k'

/-- `calculateExpiresAt`: grant expiry instant,
`grantedAt + bonusValidityDays * 24h` in milliseconds. -/
def calculateExpiresAt (cfg : BonusConfig) (grantedAt : Int) : Int :=
  grantedAt + (cfg.bonusValidityDays : Int) * 86400000

/-- `isBonusExpired`: `new Date() > expiresAt`. -/
def isBonusExpired (cfg : BonusConfig) (now : Int) (b : BonusGrant) : Bool :=
  decide (calculateExpiresAt cfg b.grantedAt < now)

/-- Index-tagging of a list, mirroring that the JS code mutates the
selected grant object inside the original `credentialBonuses` array. -/
def enumFrom (i : Nat) : List BonusGrant → List (Nat × BonusGrant)
  | [] => []
  | b :: rest => (i, b) :: enumFrom (i + 1) rest

/-- Stable insertion into a list sorted ascending by `grantedAt`;
mirrors the stable `Array.prototype.sort` comparator
`new Date(a.grantedAt) - new Date(b.grantedAt)`. -/
def insertByGrantedAt (p : Nat × BonusGrant) :
    List (Nat × BonusGrant) → List (Nat × BonusGrant)
  | [] => [p]
  | q :: rest =>
    if p.2.grantedAt < q.2.grantedAt then p :: q :: rest
    else q :: insertByGrantedAt p rest

/-- Stable ascending sort by `grantedAt` (FIFO order). -/
def sortByGrantedAt (l : List (Nat × BonusGrant)) : List (Nat × BonusGrant) :=
  l.foldl (fun acc p => insertByGrantedAt p acc) []

/-- Core of `consumeBonus` on one tenant's grant list: filter out
expired grants, sort ascending by `grantedAt`, find the first grant
with `bonusPerCredential - usedCount > 0`, increment its `usedCount`
in place; returns whether a unit was consumed. -/
def consumeBonusList (cfg : BonusConfig) (now : Int) (l : List BonusGrant) :
    Bool × List BonusGrant :=
  match (sortByGrantedAt
      ((enumFrom 0 l).filter (fun p => ! isBonusExpired cfg now p.2))).find?
      (fun p => decide (p.2.usedCount < cfg.bonusPerCredential)) with
  | none => (false, l)
  | some p =>
    (true, (enumFrom 0 l).map (fun q =>
      if q.1 = p.1 then { q.2 with usedCount := q.2.usedCount + 1 } else q.2))

/-- `consumeBonus`: serialized by `bonusMutex.runExclusive`, so each
call runs atomically with respect to the others; returns `false` for
an unknown tenant. -/
def consumeBonus (cfg : BonusConfig) (now : Int) (us : Users) (apiKey : String) :
    Bool × Users :=
  match us apiKey with
  | none => (false, us)
  | some ud =>
    let r := consumeBonusList cfg now ud.credentialBonuses
    (r.1, updateUser us apiKey { ud with credentialBonuses := r.2 })

/-- Healthy-set membership test used by `calculateBonusRemaining`
(`healthyCredentialIds` optional filter). -/
def healthyOk (healthy : Option (List String)) (cid : String) : Bool :=
  match healthy with
  | none => true
  | some hs => hs.contains cid

/-- `calculateBonusRemaining` over one tenant's grant list: skip
expired grants, skip grants outside the supplied healthy-id set, and
add `bonusPerCredential - usedCount` when positive. -/
def calculateBonusRemainingList (cfg : BonusConfig) (now : Int)
    (healthy : Option (List String)) (l : List BonusGrant) : Nat :=
  l.foldl (fun total b =>
    if isBonusExpired cfg now b then total
    else if ¬ healthyOk healthy b.credentialId then total
    else
      let remaining := cfg.bonusPerCredential - b.usedCount
      if 0 < remaining then total + remaining else total) 0

/-- One health report row fed to `syncCredentialBonuses`
(`{id, isHealthy, addedAt}`); `isHealthy = none` models the JS `null`
"unregistered" state, `addedAt = none` a missing backdate. -/
structure HealthReport where
  id : String
  isHealthy : Option Bool
  addedAt : Option Int
  deriving Repr, DecidableEq

/-- Result record of `syncCredentialBonuses`. -/
structure SyncResult where
  added : Nat
  removed : Nat
  bonusRemaining : Nat
  deriving Repr, DecidableEq

/-- The healthy-credential id set built by `syncCredentialBonuses`. -/
def healthyIdsOf (reports : List HealthReport) : List String :=
  (reports.filter (fun c => decide (c.isHealthy = some true))).map (fun c => c.id)

/-- Add phase of `syncCredentialBonuses`: for each report that is
strictly healthy and has no grant yet (checked against the growing
list), push a grant backdated to the credential's `addedAt` when
known, else granted now. -/
def syncAddGrants (now : Int) (reports : List HealthReport)
    (l : List BonusGrant) (added : Nat) : List BonusGrant × Nat :=
  reports.foldl (fun acc c =>
    if c.isHealthy = some true ∧
        ¬ acc.1.any (fun b => decide (b.credentialId = c.id)) then
      (acc.1 ++ [⟨c.id, c.addedAt.getD now, 0⟩], acc.2 + 1)
    else acc) (l, added)

/-- `syncCredentialBonuses` on one tenant's record: add grants for
newly healthy credentials, remove grants whose credential is not in
the healthy-id set, purge expired grants, and recompute the remaining
total filtered to the healthy set. -/
def syncCredentialBonuses (cfg : BonusConfig) (now : Int) (ud : UserData)
    (reports : List HealthReport) : SyncResult × UserData :=
  let healthyIds := healthyIdsOf reports
  let step1 := syncAddGrants now reports ud.credentialBonuses 0
  let l2 := step1.1.filter (fun b => healthyIds.contains b.credentialId)
  let removed := step1.1.length - l2.length
  let l3 := l2.filter (fun b => ! isBonusExpired cfg now b)
  let bonusRemaining := calculateBonusRemainingList cfg now (some healthyIds) l3
  (⟨step1.2, removed, bonusRemaining⟩, { ud with credentialBonuses := l3 })

/-- `ensureUserData`: create an empty tenant record on first touch. -/
def ensureUserData (us : Users) (apiKey : String) : UserData :=
  match us apiKey with
  | some ud => ud
  | none => ⟨[], []⟩

/-- The caller-supplied fields of `addUserCredential`'s
`credentialInfo` argument (defaults already applied). -/
structure CredentialInfo where
  path : String
  provider : String
  authMethod : String
  deriving Repr, DecidableEq

/-- Replace the first credential with the given path (the JS
`findIndex` on path followed by assignment at that index). -/
def replaceFirstByPath (p : String) (c : Credential) :
    List Credential → List Credential
  | [] => []
  | d :: rest =>
    if d.path = p then c :: rest else d :: replaceFirstByPath p c rest

/-- `addUserCredential`: if the tenant already holds a credential with
the same path, overwrite it in place keeping the original `id` and
`addedAt`; otherwise append a fresh entry.  `freshId` and `nowIso`
stand for the generated `cred_...` identifier and the current time.
The duplicate-path check only scans this tenant's own list. -/
def addUserCredential (us : Users) (apiKey : String) (freshId : String)
    (nowIso : String) (info : CredentialInfo) : Users × Credential :=
  let ud := ensureUserData us apiKey
  match ud.credentials.find? (fun c => decide (c.path = info.path)) with
  | some old =>
    let cred : Credential := ⟨old.id, info.path, info.provider, info.authMethod, old.addedAt⟩
    (updateUser us apiKey
      { ud with credentials := replaceFirstByPath info.path cred ud.credentials },
     cred)
  | none =>
    let cred : Credential := ⟨freshId, info.path, info.provider, info.authMethod, nowIso⟩
    (updateUser us apiKey
      { ud with credentials := ud.credentials ++ [cred] },
     cred)

/-! ## Usage recording (`incrementUsage` and the plugin's
`onContentGenerated` hook) -/

/-- The non-null return of `incrementUsage` (`{...keyData, usedBonus}`). -/
structure IncrementResult where
  keyData : KeyData
  usedBonus : Bool
  deriving Repr, DecidableEq

/-- `incrementUsage` from `key-manager.js`: lazy reset, then consume
the daily pool when available, else the cached bonus pool, running the
`onBonusUsed` callback `cb` on the tenant table on the bonus path; the
in-place reset persists in the store even when `null` is returned. -/
def incrementUsage (today : String) (nowIso : String) (cb : Users → Users)
    (s : KeyStore) (us : Users) (apiKey : String) :
    Option IncrementResult × KeyStore × Users :=
  match s apiKey with
  | none => (none, s, us)
  | some kd =>
    let kd1 := checkAndResetDailyCount today kd
    if kd1.todayUsage < kd1.dailyLimit then
      let kd2 := { kd1 with
        todayUsage := kd1.todayUsage + 1,
        totalUsage := kd1.totalUsage + 1,
        lastUsedAt := some nowIso }
      (some ⟨kd2, false⟩, updateKey s apiKey kd2, us)
    else if 0 < kd1.bonusRemaining then
      let kd2 := { kd1 with
        bonusRemaining := kd1.bonusRemaining - 1,
        totalUsage := kd1.totalUsage + 1,
        lastUsedAt := some nowIso }
      (some ⟨kd2, true⟩, updateKey s apiKey kd2, cb us)
    else
      (none, updateKey s apiKey kd1, us)

/-- The plugin's `onContentGenerated` hook: `incrementUsage` with the
callback `async (apiKey) => { await consumeBonus(apiKey); }` — the
consume result is discarded. -/
def recordUsage (cfg : BonusConfig) (today : String) (nowIso : String)
    (nowMs : Int) (s : KeyStore) (us : Users) (apiKey : String) :
    Option IncrementResult × KeyStore × Users :=
  incrementUsage today nowIso
    (fun us' => (consumeBonus cfg nowMs us' apiKey).2) s us apiKey

/-! ## Serialized iteration of the bonus-consumption critical section

`bonusMutex` (`SimpleMutex.runExclusive` with FIFO waiter queuing)
serializes every `consumeBonus` body, and the body suspends at no store
operation, so N concurrent `consume` calls against one tenant execute
as N back-to-back critical sections in some order; as the calls are
identical, any order is the plain iteration below. -/

/-- The tenant's grant list after `n` serialized `consumeBonus`
critical sections. -/
def consumeIter (cfg : BonusConfig) (now : Int) (l : List BonusGrant) :
    Nat → List BonusGrant
  | 0 => l
  | n + 1 => (consumeBonusList cfg now (consumeIter cfg now l n)).2

/-- How many of `n` serialized `consumeBonus` calls returned `true`. -/
def consumeSuccesses (cfg : BonusConfig) (now : Int) (l : List BonusGrant) :
    Nat → Nat
  | 0 => 0
  | n + 1 => consumeSuccesses cfg now l n +
      (if (consumeBonusList cfg now (consumeIter cfg now l n)).1 then 1 else 0)

/-- C1: for every input, `validateKey` classifies exactly as the spec's
admission taxonomy prescribes: `invalid_format` without the `maki_`
prefix, `not_found` for unknown ids, `disabled` whenever the enabled
flag is false regardless of quota, daily admission when the lazily
reset `todayUsage` is below `dailyLimit`, bonus admission when the
daily pool is exhausted and the cached `bonusRemaining` is positive,
and `quota_exceeded` when both pools are exhausted. -/
theorem validateKey_matches_spec_taxonomy
    (today : String) (s : KeyStore) (apiKey : String) :
    decisionOf (validateKey today s apiKey).1 =
      specAdmissionDecision today s apiKey := by
  unfold validateKey specAdmissionDecision
  by_cases hp : startsWithMaki apiKey
  · simp only [hp, not_true_eq_false, if_false]
    cases hs : s apiKey with
    | none => rfl
    | some kd =>
      by_cases he : kd.enabled
      · simp only [he, not_true_eq_false, if_false]
        by_cases hd :
            (checkAndResetDailyCount today kd).todayUsage <
              (checkAndResetDailyCount today kd).dailyLimit
        · simp [hd, decisionOf]
        · by_cases hb : 0 < (checkAndResetDailyCount today kd).bonusRemaining
          · simp [hd, hb, decisionOf]
          · simp [hd, hb, decisionOf]
      · simp [he, decisionOf]
  · simp [hp, decisionOf]

/-! ## Reconciliation: grants surviving a sync pass are healthy -/

/-- Every grant present after `syncCredentialBonuses` belongs to a
credential in the pass's healthy-id set (the removal phase filters the
rest out). -/
theorem sync_out_healthy (cfg : BonusConfig) (now : Int) (ud : UserData)
    (rs : List HealthReport) (b : BonusGrant)
    (hb : b ∈ (syncCredentialBonuses cfg now ud rs).2.credentialBonuses) :
    (healthyIdsOf rs).contains b.credentialId = true := by
  unfold syncCredentialBonuses at hb
  simp only at hb
  have h1 : b ∈ (syncAddGrants now rs ud.credentialBonuses 0).1.filter
      (fun b => (healthyIdsOf rs).contains b.credentialId) :=
    List.mem_of_mem_filter hb
  have h2 := List.of_mem_filter h1
  simpa using h2

/-- Every grant present after `syncCredentialBonuses` is non-expired
(the purge phase filters expired ones out). -/
theorem sync_out_not_expired (cfg : BonusConfig) (now : Int) (ud : UserData)
    (rs : List HealthReport) (b : BonusGrant)
    (hb : b ∈ (syncCredentialBonuses cfg now ud rs).2.credentialBonuses) :
    isBonusExpired cfg now b = false := by
  unfold syncCredentialBonuses at hb
  simp only at hb
  have := List.of_mem_filter hb
  simpa using this

/-- When every strictly-healthy report already has a grant in `l`, the
add phase leaves the accumulator untouched. -/
theorem syncAddGrants_no_new (now : Int) (rs : List HealthReport)
    (l : List BonusGrant) (n : Nat)
    (h : ∀ r ∈ rs, r.isHealthy = some true →
      l.any (fun b => decide (b.credentialId = r.id)) = true) :
    syncAddGrants now rs l n = (l, n) := by
  induction rs with
  | nil => rfl
  | cons r rs' ih =>
    unfold syncAddGrants
    simp only [List.foldl_cons]
    have hstep :
        (if r.isHealthy = some true ∧
            ¬ (l, n).1.any (fun b => decide (b.credentialId = r.id)) then
          ((l, n).1 ++ [⟨r.id, r.addedAt.getD now, 0⟩], (l, n).2 + 1)
        else (l, n)) = (l, n) := by
      by_cases hh : r.isHealthy = some true
      · have := h r (List.mem_cons_self r rs') hh
        simp [hh, this]
      · simp [hh]
    rw [hstep]
    exact ih (fun r' hr' => h r' (List.mem_cons_of_mem r hr'))

/-- C5 counterexample: a credential reported with `isHealthy = null`
(unregistered) does **not** keep its existing grant — with one live
grant for `c1` and the single report `{id: c1, isHealthy: null}`,
`syncCredentialBonuses` removes the grant and reports `removed = 1`,
contradicting the claim that the grant set is left as it was. -/
theorem sync_null_health_cex :
    (syncCredentialBonuses ⟨300, 30⟩ 0 ⟨[], [⟨"c1", 0, 0⟩]⟩
      [⟨"c1", none, none⟩]).1.removed = 1 ∧
    (syncCredentialBonuses ⟨300, 30⟩ 0 ⟨[], [⟨"c1", 0, 0⟩]⟩
      [⟨"c1", none, none⟩]).2.credentialBonuses = [] := by
  constructor <;> rfl

/-- C5 (amended): `syncCredentialBonuses` never creates a grant for a
credential reported with `isHealthy = null`, but it does revoke an
existing grant for such a credential: after a pass, grants remain only
for credentials reported strictly healthy (`isHealthy = true`); every
other credential — reported `false`, reported `null`, or not reported
at all — ends the pass with no grant. -/
theorem sync_grants_only_for_healthy (cfg : BonusConfig) (now : Int)
    (ud : UserData) (rs : List HealthReport) :
    ((syncCredentialBonuses cfg now ud rs).2.credentialBonuses.all
      (fun b => (healthyIdsOf rs).contains b.credentialId)) = true := by
  rw [List.all_eq_true]
  intro b hb
  exact sync_out_healthy cfg now ud rs b hb

/-- C7 counterexample: reconciliation is not a fixed point after one
pass.  With a healthy credential whose backdate `addedAt = 0` lies
beyond the validity window at `now = 3000000000` (30 days =
2592000000 ms), the first pass adds the grant and immediately purges it
as expired, so the second pass with the identical snapshot re-adds it
and returns `added = 1`, not `{added: 0, removed: 0}`. -/
theorem sync_second_pass_cex :
    (syncCredentialBonuses ⟨300, 30⟩ 3000000000
      (syncCredentialBonuses ⟨300, 30⟩ 3000000000 ⟨[], []⟩
        [⟨"c1", some true, some 0⟩]).2
      [⟨"c1", some true, some 0⟩]).1.added = 1 := by rfl

/-- C7 (amended): running `syncCredentialBonuses` a second time with
the identical health snapshot returns `{added: 0, removed: 0}`
provided every credential reported healthy still has a grant after the
first pass — i.e. no healthy credential's grant was purged as expired
during that pass (a healthy credential backdated beyond
`bonusValidityDays` is re-added and re-purged on every pass). -/
theorem sync_second_pass_fixed_point (cfg : BonusConfig) (now : Int)
    (ud ud1 : UserData) (res1 : SyncResult) (rs : List HealthReport)
    (h0 : syncCredentialBonuses cfg now ud rs = (res1, ud1))
    (h1 : ∀ r ∈ rs, r.isHealthy = some true →
      ud1.credentialBonuses.any (fun b => decide (b.credentialId = r.id)) = true) :
    (syncCredentialBonuses cfg now ud1 rs).1.added = 0 ∧
    (syncCredentialBonuses cfg now ud1 rs).1.removed = 0 := by
  have hud1 : ud1 = (syncCredentialBonuses cfg now ud rs).2 := by rw [h0]
  have hH : ∀ b ∈ ud1.credentialBonuses,
      (healthyIdsOf rs).contains b.credentialId = true := by
    intro b hb
    rw [hud1] at hb
    exact sync_out_healthy cfg now ud rs b hb
  have hadd := syncAddGrants_no_new now rs ud1.credentialBonuses 0 h1
  have hfil : ud1.credentialBonuses.filter
      (fun b => (healthyIdsOf rs).contains b.credentialId) =
        ud1.credentialBonuses :=
    List.filter_eq_self.mpr hH
  unfold syncCredentialBonuses
  simp only [hadd, hfil]
  exact ⟨trivial, Nat.sub_self _⟩

/-- C7 witness: a first pass over an empty ledger with one healthy,
non-expired credential, then the theorem applied to its output. -/
theorem sync_second_pass_fixed_point_witness :
    (syncCredentialBonuses ⟨300, 30⟩ 0 ⟨[], [⟨"c1", 0, 0⟩]⟩
      [⟨"c1", some true, some 0⟩]).1.added = 0 ∧
    (syncCredentialBonuses ⟨300, 30⟩ 0 ⟨[], [⟨"c1", 0, 0⟩]⟩
      [⟨"c1", some true, some 0⟩]).1.removed = 0 :=
  sync_second_pass_fixed_point ⟨300, 30⟩ 0 ⟨[], []⟩ ⟨[], [⟨"c1", 0, 0⟩]⟩
    ⟨1, 0, 300⟩ [⟨"c1", some true, some 0⟩] (by decide) (by decide)

/-! ## Daily reset (C6) -/

/-- For a stored, enabled, well-formatted key, `validateKey` leaves the
store exactly as the lazy reset dictates: the touched record becomes
its `checkAndResetDailyCount` image, whichever admission branch is
taken. -/
theorem validateKey_store_eq (today : String) (s : KeyStore) (k : String)
    (kd : KeyData) (hk : s k = some kd) (he : kd.enabled = true)
    (hp : startsWithMaki k = true) :
    (validateKey today s k).2 = updateKey s k (checkAndResetDailyCount today kd) := by
  unfold validateKey
  rw [hk]
  simp only [hp, he, not_true_eq_false, if_false, Bool.true_eq_false]
  split <;> [rfl; split <;> rfl]

/-- C6: the lazy daily reset is idempotent and fires exactly once per
rollover, only on touch.  For a stored, enabled, well-formatted key:
a `validateKey` call within the same calendar day (`lastResetDate =
today`) leaves the whole store unchanged, and the first call after a
rollover sets `todayUsage` to 0 and `lastResetDate` to the new day,
after which a second call changes nothing — the embedding has no
background timer, so state changes only through these touches. -/
theorem validateKey_daily_reset (today : String) (s : KeyStore)
    (k : String) (kd : KeyData)
    (hk : s k = some kd) (he : kd.enabled = true)
    (hp : startsWithMaki k = true) :
    (kd.lastResetDate = today → (validateKey today s k).2 = s) ∧
    (kd.lastResetDate ≠ today →
      (validateKey today s k).2 k =
        some { kd with todayUsage := 0, lastResetDate := today } ∧
      (validateKey today ((validateKey today s k).2) k).2 =
        (validateKey today s k).2) := by
  constructor
  · intro hsame
    have hid : checkAndResetDailyCount today kd = kd := by
      unfold checkAndResetDailyCount; simp [hsame]
    rw [validateKey_store_eq today s k kd hk he hp, hid]
    funext k'
    unfold updateKey
    by_cases hkk : k' = k <;> simp [hkk, hk]
  · intro hd
    have hkd1 : checkAndResetDailyCount today kd =
        { kd with todayUsage := 0, lastResetDate := today } := by
      unfold checkAndResetDailyCount; simp [hd]
    have hs1 : (validateKey today s k).2 =
        updateKey s k { kd with todayUsage := 0, lastResetDate := today } := by
      rw [validateKey_store_eq today s k kd hk he hp, hkd1]
    constructor
    · rw [hs1]; unfold updateKey; simp
    · set kd1 : KeyData := { kd with todayUsage := 0, lastResetDate := today }
        with hkd1def
      have hk1 : (validateKey today s k).2 k = some kd1 := by
        rw [hs1]; unfold updateKey; simp
      have hst := validateKey_store_eq today ((validateKey today s k).2) k kd1
        hk1 he hp
      have hnores : checkAndResetDailyCount today kd1 = kd1 := by
        unfold checkAndResetDailyCount
        simp [hkd1def]
      rw [hst, hnores, hs1]
      funext k'
      unfold updateKey
      by_cases hkk : k' = k <;> simp [hkk]

/-- C6 witness: a key last reset on 2024-01-01 touched on 2024-01-02
is reset to 0 once; the second touch leaves the store unchanged. -/
theorem validateKey_daily_reset_witness :
    (validateKey "2024-01-02"
      (fun x => if x = "maki_k" then
        some ⟨"maki_k", "n", "c", 10, 5, 7, "2024-01-01", none, true, 0⟩
      else none) "maki_k").2 "maki_k" =
      some ⟨"maki_k", "n", "c", 10, 0, 7, "2024-01-02", none, true, 0⟩ ∧
    (validateKey "2024-01-02"
      ((validateKey "2024-01-02"
        (fun x => if x = "maki_k" then
          some ⟨"maki_k", "n", "c", 10, 5, 7, "2024-01-01", none, true, 0⟩
        else none) "maki_k").2) "maki_k").2 =
      (validateKey "2024-01-02"
        (fun x => if x = "maki_k" then
          some ⟨"maki_k", "n", "c", 10, 5, 7, "2024-01-01", none, true, 0⟩
        else none) "maki_k").2 :=
  (validateKey_daily_reset "2024-01-02"
    (fun x => if x = "maki_k" then
      some ⟨"maki_k", "n", "c", 10, 5, 7, "2024-01-01", none, true, 0⟩
    else none) "maki_k"
    ⟨"maki_k", "n", "c", 10, 5, 7, "2024-01-01", none, true, 0⟩
    (by decide) rfl (by decide)).2 (by decide)

/-! ## FIFO consumption and concurrent safety (C2, C3) -/

/-- `consumeBonusList` on a single non-expired grant: consume succeeds
and increments exactly when capacity remains. -/
theorem consumeBonusList_single (cfg : BonusConfig) (now : Int) (cid : String)
    (t : Int) (u : Nat) (hexp : ¬ calculateExpiresAt cfg t < now) :
    consumeBonusList cfg now [⟨cid, t, u⟩] =
      if u < cfg.bonusPerCredential then (true, [⟨cid, t, u + 1⟩])
      else (false, [⟨cid, t, u⟩]) := by
  unfold consumeBonusList
  simp [enumFrom, sortByGrantedAt, insertByGrantedAt, isBonusExpired, hexp,
    List.find?]
  by_cases hu : u < cfg.bonusPerCredential <;> simp [hu, enumFrom]

/-- `consumeBonusList` on two non-expired grants with `t1 < t2`: the
older grant is drawn first; the newer one only once the older is full. -/
theorem consumeBonusList_two (cfg : BonusConfig) (now : Int)
    (id1 id2 : String) (t1 t2 : Int) (u1 u2 : Nat)
    (h1 : ¬ calculateExpiresAt cfg t1 < now)
    (h2 : ¬ calculateExpiresAt cfg t2 < now) (ht : t1 < t2) :
    consumeBonusList cfg now [⟨id1, t1, u1⟩, ⟨id2, t2, u2⟩] =
      if u1 < cfg.bonusPerCredential then
        (true, [⟨id1, t1, u1 + 1⟩, ⟨id2, t2, u2⟩])
      else if u2 < cfg.bonusPerCredential then
        (true, [⟨id1, t1, u1⟩, ⟨id2, t2, u2 + 1⟩])
      else (false, [⟨id1, t1, u1⟩, ⟨id2, t2, u2⟩]) := by
  have hnlt : ¬ t2 < t1 := not_lt_of_lt ht
  unfold consumeBonusList
  simp [enumFrom, sortByGrantedAt, insertByGrantedAt, isBonusExpired, h1, h2,
    hnlt, List.find?]
  by_cases hu1 : u1 < cfg.bonusPerCredential
  · simp [hu1, enumFrom]
  · by_cases hu2 : u2 < cfg.bonusPerCredential <;> simp [hu1, hu2, enumFrom]

/-- C3: N concurrent `consume` calls against a single tenant holding
one non-expired grant of capacity `bonusPerCredential` with
`usedCount = 0` yield exactly `min N capacity` successes, and the
grant's final `usedCount` is `min N capacity` — no unit is consumed
twice or skipped.  Concurrency is modelled by the mutex contract: the
FIFO `bonusMutex` serializes the critical sections, and the identical
calls then reduce to the plain iteration `consumeIter`. -/
theorem consume_concurrent_min (cfg : BonusConfig) (now : Int) (cid : String)
    (t : Int) (N : Nat) (hexp : ¬ calculateExpiresAt cfg t < now) :
    consumeIter cfg now [⟨cid, t, 0⟩] N =
      [⟨cid, t, min N cfg.bonusPerCredential⟩] ∧
    consumeSuccesses cfg now [⟨cid, t, 0⟩] N = min N cfg.bonusPerCredential := by
  induction N with
  | zero => simp [consumeIter, consumeSuccesses]
  | succ n ih =>
    obtain ⟨ih1, ih2⟩ := ih
    unfold consumeIter consumeSuccesses
    rw [ih1, ih2, consumeBonusList_single cfg now cid t _ hexp]
    by_cases h : min n cfg.bonusPerCredential < cfg.bonusPerCredential <;>
      refine ⟨?_, ?_⟩ <;> simp [h] <;> omega

/-- C3 witness: 5 serialized consumes against one grant of capacity 2
give `min 5 2 = 2` successes and final `usedCount = 2`. -/
theorem consume_concurrent_min_witness :
    consumeIter ⟨2, 30⟩ 0 [⟨"c1", 0, 0⟩] 5 = [⟨"c1", 0, min 5 2⟩] ∧
    consumeSuccesses ⟨2, 30⟩ 0 [⟨"c1", 0, 0⟩] 5 = min 5 2 :=
  consume_concurrent_min ⟨2, 30⟩ 0 "c1" 0 5 (by decide)

/-- C2: FIFO exhaustion across two grants.  With non-expired grants
G1 at `t1` and G2 at `t2 > t1`, both of capacity `bonusPerCredential`
and `usedCount = 0`: after `n < capacity` consumes, G1's count is `n`
and G2's still 0; the next consume succeeds and again increments G1
only; and G2 is first touched by call `capacity + 1`. -/
theorem consume_fifo_two (cfg : BonusConfig) (now : Int) (id1 id2 : String)
    (t1 t2 : Int) (n : Nat)
    (hn : n < cfg.bonusPerCredential) (ht : t1 < t2)
    (h1 : ¬ calculateExpiresAt cfg t1 < now)
    (h2 : ¬ calculateExpiresAt cfg t2 < now) :
    consumeIter cfg now [⟨id1, t1, 0⟩, ⟨id2, t2, 0⟩] n =
      [⟨id1, t1, n⟩, ⟨id2, t2, 0⟩] ∧
    consumeBonusList cfg now
        (consumeIter cfg now [⟨id1, t1, 0⟩, ⟨id2, t2, 0⟩] n) =
      (true, [⟨id1, t1, n + 1⟩, ⟨id2, t2, 0⟩]) ∧
    consumeIter cfg now [⟨id1, t1, 0⟩, ⟨id2, t2, 0⟩]
        (cfg.bonusPerCredential + 1) =
      [⟨id1, t1, cfg.bonusPerCredential⟩, ⟨id2, t2, 1⟩] := by
  have haux : ∀ m, m ≤ cfg.bonusPerCredential →
      consumeIter cfg now [⟨id1, t1, 0⟩, ⟨id2, t2, 0⟩] m =
        [⟨id1, t1, m⟩, ⟨id2, t2, 0⟩] := by
    intro m
    induction m with
    | zero => intro _; rfl
    | succ j ihj =>
      intro hj
      unfold consumeIter
      rw [ihj (Nat.le_of_succ_le hj),
        consumeBonusList_two cfg now id1 id2 t1 t2 j 0 h1 h2 ht]
      have hjC : j < cfg.bonusPerCredential := Nat.lt_of_succ_le hj
      simp [hjC]
  refine ⟨haux n (Nat.le_of_lt hn), ?_, ?_⟩
  · rw [haux n (Nat.le_of_lt hn),
      consumeBonusList_two cfg now id1 id2 t1 t2 n 0 h1 h2 ht]
    simp [hn]
  · unfold consumeIter
    rw [haux cfg.bonusPerCredential (Nat.le_refl _),
      consumeBonusList_two cfg now id1 id2 t1 t2 cfg.bonusPerCredential 0 h1 h2 ht]
    have hC0 : 0 < cfg.bonusPerCredential := Nat.pos_of_ne_zero (by omega)
    simp [hC0]

/-- C2 witness: capacity 2, grants at 10 and 20; after one consume G1
holds 1 and G2 holds 0; the second consume still draws G1; the third
consume is the first to touch G2. -/
theorem consume_fifo_two_witness :
    consumeIter ⟨2, 30⟩ 0 [⟨"c1", 10, 0⟩, ⟨"c2", 20, 0⟩] 1 =
      [⟨"c1", 10, 1⟩, ⟨"c2", 20, 0⟩] ∧
    consumeBonusList ⟨2, 30⟩ 0
        (consumeIter ⟨2, 30⟩ 0 [⟨"c1", 10, 0⟩, ⟨"c2", 20, 0⟩] 1) =
      (true, [⟨"c1", 10, 2⟩, ⟨"c2", 20, 0⟩]) ∧
    consumeIter ⟨2, 30⟩ 0 [⟨"c1", 10, 0⟩, ⟨"c2", 20, 0⟩] (2 + 1) =
      [⟨"c1", 10, 2⟩, ⟨"c2", 20, 1⟩] :=
  consume_fifo_two ⟨2, 30⟩ 0 "c1" "c2" 10 20 1 (by decide) (by decide)
    (by decide) (by decide)

/-! ## Expiry exclusion (C8) -/

/-- Index lookup through `enumFrom`. -/

theorem enumFrom_getElem? (i : Nat) (l : List BonusGrant) (j : Nat) :
    (enumFrom i l)[j]? = (l[j]?).map (fun b => (i + j, b)) := by
  induction l generalizing i j with
  | nil => simp [enumFrom]
  | cons b rest ih =>
    cases j with
    | zero => simp [enumFrom]
    | succ j' =>
      simp only [enumFrom, List.getElem?_cons_succ, ih (i + 1) j']
      have : i + 1 + j' = i + (j' + 1) := by omega
      rw [this]

theorem mem_insertByGrantedAt (p q : Nat × BonusGrant)
    (l : List (Nat × BonusGrant)) :
    q ∈ insertByGrantedAt p l → q = p ∨ q ∈ l := by
  induction l with
  | nil => intro h; simpa [insertByGrantedAt] using h
  | cons r rest ih =>
    intro h
    unfold insertByGrantedAt at h
    by_cases hc : p.2.grantedAt < r.2.grantedAt
    · simp [hc] at h
      rcases h with h | h | h
      · exact Or.inl h
      · exact Or.inr (by simp [h])
      · exact Or.inr (List.mem_cons_of_mem r h)
    · simp [hc] at h
      rcases h with h | h
      · exact Or.inr (by simp [h])
      · rcases ih h with h' | h'
        · exact Or.inl h'
        · exact Or.inr (List.mem_cons_of_mem r h')

theorem mem_sortByGrantedAt_aux (l acc : List (Nat × BonusGrant))
    (q : Nat × BonusGrant)
    (h : q ∈ l.foldl (fun acc p => insertByGrantedAt p acc) acc) :
    q ∈ acc ∨ q ∈ l := by
  induction l generalizing acc with
  | nil => exact Or.inl h
  | cons r rest ih =>
    simp only [List.foldl_cons] at h
    rcases ih (insertByGrantedAt r acc) h with h' | h'
    · rcases mem_insertByGrantedAt r q acc h' with h'' | h''
      · exact Or.inr (by simp [h''])
      · exact Or.inl h''
    · exact Or.inr (List.mem_cons_of_mem r h')

theorem mem_sortByGrantedAt (l : List (Nat × BonusGrant))
    (q : Nat × BonusGrant) (h : q ∈ sortByGrantedAt l) : q ∈ l := by
  rcases mem_sortByGrantedAt_aux l [] q h with h' | h'
  · simp at h'
  · exact h'

theorem enumFrom_mem_getElem? (i : Nat) (l : List BonusGrant)
    (p : Nat × BonusGrant) (h : p ∈ enumFrom i l) :
    ∃ j, p.1 = i + j ∧ l[j]? = some p.2 := by
  induction l generalizing i with
  | nil => simp [enumFrom] at h
  | cons b rest ih =>
    unfold enumFrom at h
    rcases List.mem_cons.mp h with h' | h'
    · exact ⟨0, by simp [h'], by simp [h']⟩
    · obtain ⟨j, hj1, hj2⟩ := ih (i + 1) h'
      exact ⟨j + 1, by omega, by simpa using hj2⟩

theorem consumeBonusList_expired_untouched (cfg : BonusConfig) (now : Int)
    (l : List BonusGrant) (j : Nat) (g : BonusGrant)
    (hj : l[j]? = some g) (hg : isBonusExpired cfg now g = true) :
    ((consumeBonusList cfg now l).2)[j]? = some g := by
  unfold consumeBonusList
  cases hfind : (sortByGrantedAt
      ((enumFrom 0 l).filter (fun p => ! isBonusExpired cfg now p.2))).find?
      (fun p => decide (p.2.usedCount < cfg.bonusPerCredential)) with
  | none => simpa using hj
  | some p =>
    simp only
    have hmem := List.mem_of_find?_eq_some hfind
    have hmem2 : p ∈ (enumFrom 0 l).filter
        (fun q => ! isBonusExpired cfg now q.2) :=
      mem_sortByGrantedAt _ p hmem
    have hne := List.of_mem_filter hmem2
    have hmem3 : p ∈ enumFrom 0 l := List.mem_of_mem_filter hmem2
    obtain ⟨j', hj1, hj2⟩ := enumFrom_mem_getElem? 0 l p hmem3
    have hjp : j ≠ p.1 := by
      intro hjeq
      have : l[j']? = some p.2 := hj2
      rw [hjeq, hj1] at hj
      simp only [Nat.zero_add] at hj
      rw [hj] at this
      have hgp : g = p.2 := by
        have h2 := this
        simp only [Option.some.injEq] at h2
        exact h2
      rw [hgp] at hg
      simp [hg] at hne
    rw [List.getElem?_map, enumFrom_getElem?]
    rw [hj]
    simp [Nat.zero_add, hjp]

theorem calcRemaining_skip_expired (cfg : BonusConfig) (now : Int)
    (healthy : Option (List String)) (l1 l2 : List BonusGrant)
    (g : BonusGrant) (hg : isBonusExpired cfg now g = true) :
    calculateBonusRemainingList cfg now healthy (l1 ++ g :: l2) =
      calculateBonusRemainingList cfg now healthy (l1 ++ l2) := by
  unfold calculateBonusRemainingList
  rw [List.foldl_append, List.foldl_append, List.foldl_cons]
  simp [hg]

/-- C8: a grant past its validity window (`now > grantedAt +
bonusValidityDays`) is excluded from both consumption and the
remaining count: `consumeBonus` leaves such a grant's entry untouched
wherever it sits in the list, and `calculateBonusRemaining`
contributes 0 for it (dropping it from the list leaves the total
unchanged). -/
theorem expired_grant_excluded (cfg : BonusConfig) (now : Int)
    (l l1 l2 : List BonusGrant) (j : Nat) (g : BonusGrant)
    (healthy : Option (List String))
    (hj : l[j]? = some g) (hg : isBonusExpired cfg now g = true) :
    ((consumeBonusList cfg now l).2)[j]? = some g ∧
    calculateBonusRemainingList cfg now healthy (l1 ++ g :: l2) =
      calculateBonusRemainingList cfg now healthy (l1 ++ l2) :=
  ⟨consumeBonusList_expired_untouched cfg now l j g hj hg,
   calcRemaining_skip_expired cfg now healthy l1 l2 g hg⟩

/-- C8 witness: a grant granted at epoch 0 with 30-day validity,
observed one millisecond past expiry, is not consumed (despite spare
capacity) and adds nothing to the remaining total. -/
theorem expired_grant_excluded_witness :
    ((consumeBonusList ⟨300, 30⟩ 2592000001 [⟨"c1", 0, 5⟩]).2)[0]? =
      some ⟨"c1", 0, 5⟩ ∧
    calculateBonusRemainingList ⟨300, 30⟩ 2592000001 none
        ([] ++ ⟨"c1", 0, 5⟩ :: []) =
      calculateBonusRemainingList ⟨300, 30⟩ 2592000001 none ([] ++ []) :=
  expired_grant_excluded ⟨300, 30⟩ 2592000001 [⟨"c1", 0, 5⟩] [] [] 0
    ⟨"c1", 0, 5⟩ none (by decide) (by decide)

/-! ## Credential path ownership (C9) -/

/-- Re-adding a credential at an existing path replaces it in place,
leaving the tenant's path multiset unchanged. -/
theorem replaceFirstByPath_map_path (p : String) (c : Credential)
    (hc : c.path = p) (l : List Credential) :
    (replaceFirstByPath p c l).map (fun d => d.path) =
      l.map (fun d => d.path) := by
  induction l with
  | nil => rfl
  | cons d rest ih =>
    unfold replaceFirstByPath
    by_cases hd : d.path = p
    · simp [hd, hc]
    · simp [hd, ih]

/-- C9 (amended): `addUserCredential` enforces path uniqueness only
within a single tenant: if the tenant's credential paths are pairwise
distinct before the call, they remain pairwise distinct after it (a
duplicate path is overwritten in place, a new path is appended).  No
cross-tenant check is performed, so two tenants can hold the same path
(see the counterexample). -/
theorem addUserCredential_tenant_path_unique (us : Users)
    (k fid niso : String) (info : CredentialInfo) (ud' : UserData)
    (hnd : ((ensureUserData us k).credentials.map (fun c => c.path)).Nodup)
    (h : (addUserCredential us k fid niso info).1 k = some ud') :
    (ud'.credentials.map (fun c => c.path)).Nodup := by
  unfold addUserCredential at h
  simp only [] at h
  cases hfind : (ensureUserData us k).credentials.find?
      (fun c => decide (c.path = info.path)) with
  | some old =>
    rw [hfind] at h
    simp only [updateUser, eq_self_iff_true, if_true, Option.some.injEq] at h
    rw [← h]
    simp only
    rw [replaceFirstByPath_map_path info.path _ rfl]
    exact hnd
  | none =>
    rw [hfind] at h
    simp only [updateUser, eq_self_iff_true, if_true, Option.some.injEq] at h
    rw [← h]
    simp only [List.map_append, List.map_cons, List.map_nil]
    have hnp : ∀ c ∈ (ensureUserData us k).credentials, c.path ≠ info.path := by
      intro c hc
      have := List.find?_eq_none.mp hfind c hc
      simpa using this
    rw [List.nodup_append]
    refine ⟨hnd, List.nodup_singleton _, ?_⟩
    intro x hx
    simp only [List.mem_map] at hx
    obtain ⟨c, hc, hcx⟩ := hx
    simp only [List.mem_singleton]
    rw [← hcx]
    exact fun hh => hnp c hc hh

/-- C9 counterexample: starting from an empty tenant table, tenant
`maki_a` adds path `p.json`, then tenant `maki_b` adds the same path;
both tenants' credential lists now contain an entry with that path, so
a credential path does not belong to exactly one tenant. -/
theorem cross_tenant_path_cex :
    ((addUserCredential
        (addUserCredential (fun _ => none) "maki_a" "ca" "t1"
          ⟨"p.json", "kiro", "upload"⟩).1
        "maki_b" "cb" "t2" ⟨"p.json", "kiro", "upload"⟩).1 "maki_a").map
      (fun ud => ud.credentials.any (fun c => decide (c.path = "p.json"))) =
        some true ∧
    ((addUserCredential
        (addUserCredential (fun _ => none) "maki_a" "ca" "t1"
          ⟨"p.json", "kiro", "upload"⟩).1
        "maki_b" "cb" "t2" ⟨"p.json", "kiro", "upload"⟩).1 "maki_b").map
      (fun ud => ud.credentials.any (fun c => decide (c.path = "p.json"))) =
        some true ∧
    "maki_a" ≠ "maki_b" := by
  refine ⟨?_, ?_, ?_⟩ <;> decide

/-- C9 witness: adding a fresh path to an empty tenant keeps the
tenant's path list duplicate-free. -/
theorem addUserCredential_tenant_path_unique_witness :
    (((⟨[⟨"ca", "p.json", "kiro", "upload", "t1"⟩], []⟩ : UserData)).credentials.map
      (fun c => c.path)).Nodup :=
  addUserCredential_tenant_path_unique (fun _ => none) "maki_a" "ca" "t1"
    ⟨"p.json", "kiro", "upload"⟩ ⟨[⟨"ca", "p.json", "kiro", "upload", "t1"⟩], []⟩
    (by decide) (by decide)

/-! ## Usage recording frame (C10) -/

/-- The lazy reset never changes `totalUsage`. -/
theorem reset_totalUsage (today : String) (kd : KeyData) :
    (checkAndResetDailyCount today kd).totalUsage = kd.totalUsage := by
  unfold checkAndResetDailyCount; split <;> rfl

/-- The lazy reset never changes the cached `bonusRemaining`. -/
theorem reset_bonusRemaining (today : String) (kd : KeyData) :
    (checkAndResetDailyCount today kd).bonusRemaining = kd.bonusRemaining := by
  unfold checkAndResetDailyCount; split <;> rfl

/-- C10 (amended): whenever `incrementUsage` succeeds it bumps that
key's `totalUsage` by exactly 1, stamps `lastUsedAt`, stores the
returned record, leaves every other key untouched, and changes exactly
one quota pool *relative to the lazily reset state*: on the daily path
(`usedBonus = false`) `todayUsage` becomes its reset value plus 1 and
the bonus cache is unchanged; on the bonus path (`usedBonus = true`)
`bonusRemaining` drops by 1 and `todayUsage` keeps its reset value.
On a same-day call the reset value is the stored value, giving exactly
+1; across a rollover the daily counter is first reset to 0. -/
theorem incrementUsage_frame (today nowIso : String) (cb : Users → Users)
    (s : KeyStore) (us : Users) (k k' : String) (kd : KeyData)
    (r : IncrementResult)
    (hk : s k = some kd) (hk' : k' ≠ k)
    (hr : (incrementUsage today nowIso cb s us k).1 = some r) :
    r.keyData.totalUsage = kd.totalUsage + 1 ∧
    r.keyData.lastUsedAt = some nowIso ∧
    (incrementUsage today nowIso cb s us k).2.1 k = some r.keyData ∧
    (incrementUsage today nowIso cb s us k).2.1 k' = s k' ∧
    ((r.usedBonus = false ∧
        r.keyData.todayUsage = (checkAndResetDailyCount today kd).todayUsage + 1 ∧
        r.keyData.bonusRemaining = kd.bonusRemaining) ∨
      (r.usedBonus = true ∧
        r.keyData.bonusRemaining + 1 = kd.bonusRemaining ∧
        r.keyData.todayUsage = (checkAndResetDailyCount today kd).todayUsage)) := by
  unfold incrementUsage at hr ⊢
  rw [hk] at hr ⊢
  by_cases hd : (checkAndResetDailyCount today kd).todayUsage <
      (checkAndResetDailyCount today kd).dailyLimit
  · simp only [hd, if_true, Option.some.injEq] at hr
    subst hr
    refine ⟨by simp [reset_totalUsage], rfl, ?_, ?_, Or.inl ⟨rfl, rfl, ?_⟩⟩
    · simp only [hd, if_true, updateKey, if_pos rfl]
    · simp only [hd, if_true, updateKey, if_neg hk']
    · simp [reset_bonusRemaining]
  · by_cases hb : 0 < (checkAndResetDailyCount today kd).bonusRemaining
    · simp only [hd, if_false, hb, if_true, Option.some.injEq] at hr
      subst hr
      refine ⟨by simp [reset_totalUsage], rfl, ?_, ?_, Or.inr ⟨rfl, ?_, rfl⟩⟩
      · simp only [hd, if_false, hb, if_true, updateKey, if_pos rfl]
      · simp only [hd, if_false, hb, if_true, updateKey, if_neg hk']
      · simp only
        rw [← reset_bonusRemaining today kd]
        omega
    · simp only [hd, if_false, hb, Option.some.injEq] at hr
      cases hr

/-- C10 counterexample: across a calendar rollover the daily counter
does not increase by 1.  A key stored with `todayUsage = 5`,
`dailyLimit = 10`, `lastResetDate = 2024-01-01` touched on 2024-01-02
succeeds on the daily path with new `todayUsage = 1`, not `5 + 1`. -/
theorem incrementUsage_rollover_cex :
    ((incrementUsage "2024-01-02" "T" (fun u => u)
        (fun x => if x = "maki_k" then
          some ⟨"maki_k", "n", "c", 10, 5, 7, "2024-01-01", none, true, 3⟩
        else none)
        (fun _ => none) "maki_k").1.map
      (fun r => (r.usedBonus, r.keyData.todayUsage))) = some (false, 1) ∧
    (1 : Nat) ≠ 5 + 1 := by
  exact ⟨rfl, by decide⟩

/-- C10 witness: a same-day daily-path success, with the frame checked
against the untouched key `maki_x`. -/
theorem incrementUsage_frame_witness :
    (⟨⟨"maki_k", "n", "c", 10, 6, 8, "2024-01-02", some "T", true, 3⟩, false⟩ :
        IncrementResult).keyData.totalUsage =
      (⟨"maki_k", "n", "c", 10, 5, 7, "2024-01-02", none, true, 3⟩ :
        KeyData).totalUsage + 1 ∧
    (⟨⟨"maki_k", "n", "c", 10, 6, 8, "2024-01-02", some "T", true, 3⟩, false⟩ :
        IncrementResult).keyData.lastUsedAt = some "T" ∧
    (incrementUsage "2024-01-02" "T" (fun u => u)
        (fun x => if x = "maki_k" then
          some ⟨"maki_k", "n", "c", 10, 5, 7, "2024-01-02", none, true, 3⟩
        else none) (fun _ => none) "maki_k").2.1 "maki_k" =
      some (⟨⟨"maki_k", "n", "c", 10, 6, 8, "2024-01-02", some "T", true, 3⟩,
        false⟩ : IncrementResult).keyData ∧
    (incrementUsage "2024-01-02" "T" (fun u => u)
        (fun x => if x = "maki_k" then
          some ⟨"maki_k", "n", "c", 10, 5, 7, "2024-01-02", none, true, 3⟩
        else none) (fun _ => none) "maki_k").2.1 "maki_x" =
      (fun x => if x = "maki_k" then
        some (⟨"maki_k", "n", "c", 10, 5, 7, "2024-01-02", none, true, 3⟩ : KeyData)
      else none) "maki_x" ∧
    (((⟨⟨"maki_k", "n", "c", 10, 6, 8, "2024-01-02", some "T", true, 3⟩, false⟩ :
        IncrementResult).usedBonus = false ∧
      (⟨⟨"maki_k", "n", "c", 10, 6, 8, "2024-01-02", some "T", true, 3⟩, false⟩ :
        IncrementResult).keyData.todayUsage =
        (checkAndResetDailyCount "2024-01-02"
          ⟨"maki_k", "n", "c", 10, 5, 7, "2024-01-02", none, true, 3⟩).todayUsage + 1 ∧
      (⟨⟨"maki_k", "n", "c", 10, 6, 8, "2024-01-02", some "T", true, 3⟩, false⟩ :
        IncrementResult).keyData.bonusRemaining =
        (⟨"maki_k", "n", "c", 10, 5, 7, "2024-01-02", none, true, 3⟩ :
          KeyData).bonusRemaining) ∨
     ((⟨⟨"maki_k", "n", "c", 10, 6, 8, "2024-01-02", some "T", true, 3⟩, false⟩ :
        IncrementResult).usedBonus = true ∧
      (⟨⟨"maki_k", "n", "c", 10, 6, 8, "2024-01-02", some "T", true, 3⟩, false⟩ :
        IncrementResult).keyData.bonusRemaining + 1 =
        (⟨"maki_k", "n", "c", 10, 5, 7, "2024-01-02", none, true, 3⟩ :
          KeyData).bonusRemaining ∧
      (⟨⟨"maki_k", "n", "c", 10, 6, 8, "2024-01-02", some "T", true, 3⟩, false⟩ :
        IncrementResult).keyData.todayUsage =
        (checkAndResetDailyCount "2024-01-02"
          ⟨"maki_k", "n", "c", 10, 5, 7, "2024-01-02", none, true, 3⟩).todayUsage)) :=
  incrementUsage_frame "2024-01-02" "T" (fun u => u)
    (fun x => if x = "maki_k" then
      some ⟨"maki_k", "n", "c", 10, 5, 7, "2024-01-02", none, true, 3⟩
    else none) (fun _ => none) "maki_k" "maki_x"
    ⟨"maki_k", "n", "c", 10, 5, 7, "2024-01-02", none, true, 3⟩
    ⟨⟨"maki_k", "n", "c", 10, 6, 8, "2024-01-02", some "T", true, 3⟩, false⟩
    (by decide) (by decide) (by decide)

/-! ## Stale bonus cache at usage recording (C4) -/

/-- A failed consume leaves the grant list untouched. -/
theorem consumeBonusList_fail_unchanged (cfg : BonusConfig) (now : Int)
    (l : List BonusGrant) (h : (consumeBonusList cfg now l).1 = false) :
    (consumeBonusList cfg now l).2 = l := by
  unfold consumeBonusList at h ⊢
  cases hfind : (sortByGrantedAt
      ((enumFrom 0 l).filter (fun p => ! isBonusExpired cfg now p.2))).find?
      (fun p => decide (p.2.usedCount < cfg.bonusPerCredential)) with
  | none => rfl
  | some p => rw [hfind] at h; simp at h

/-- A failed `consumeBonus` leaves every tenant's record untouched:
no grant is fabricated or incremented. -/
theorem consumeBonus_fail_unchanged (cfg : BonusConfig) (now : Int)
    (us : Users) (k k' : String)
    (h : (consumeBonus cfg now us k).1 = false) :
    (consumeBonus cfg now us k).2 k' = us k' := by
  unfold consumeBonus at h ⊢
  cases hus : us k with
  | none => rfl
  | some ud =>
    rw [hus] at h
    simp only at h ⊢
    have hl := consumeBonusList_fail_unchanged cfg now ud.credentialBonuses h
    rw [hl]
    unfold updateUser
    by_cases hkk : k' = k
    · simp [hkk, hus]
    · simp [hkk]

/-- C4 (amended): when the daily pool is exhausted and the cached
`bonusRemaining` is positive but the ledger consume fails (stale
cache), `recordUsage` does **not** return a no-quota outcome: it
ignores the discarded consume result, decrements only the cached
counter, and records the request as a bonus admission
(`usedBonus = true`, `totalUsage + 1`).  What does hold is that no
grant is fabricated — the failed consume leaves the tenant ledger
exactly as it was; `recordUsage` returns the no-quota `null` only when
the cached `bonusRemaining` is 0. -/
theorem recordUsage_stale_cache (cfg : BonusConfig) (today nowIso : String)
    (nowMs : Int) (s : KeyStore) (us : Users) (k k' : String) (kd : KeyData)
    (hk : s k = some kd)
    (hd : ¬ (checkAndResetDailyCount today kd).todayUsage <
      (checkAndResetDailyCount today kd).dailyLimit)
    (hb : 0 < kd.bonusRemaining)
    (hc : (consumeBonus cfg nowMs us k).1 = false) :
    (recordUsage cfg today nowIso nowMs s us k).1 =
      some ⟨{ checkAndResetDailyCount today kd with
          bonusRemaining := kd.bonusRemaining - 1,
          totalUsage := kd.totalUsage + 1,
          lastUsedAt := some nowIso }, true⟩ ∧
    (recordUsage cfg today nowIso nowMs s us k).2.2 k' = us k' := by
  unfold recordUsage incrementUsage
  rw [hk]
  have hb1 : 0 < (checkAndResetDailyCount today kd).bonusRemaining := by
    rw [reset_bonusRemaining]; exact hb
  simp only [hd, if_false, hb1, if_true]
  constructor
  · rw [reset_bonusRemaining, reset_totalUsage]
  · exact consumeBonus_fail_unchanged cfg nowMs us k k' hc

/-- C4 counterexample: daily pool exhausted (500/500), cached
`bonusRemaining = 1`, but the tenant ledger holds no grant, so the
ledger consume fails — yet `recordUsage` returns an admitted result
with `usedBonus = true` instead of the claimed no-quota outcome. -/
theorem recordUsage_stale_cache_cex :
    (consumeBonus ⟨300, 30⟩ 0
      (fun x => if x = "maki_k" then some ⟨[], []⟩ else none) "maki_k").1 =
      false ∧
    ((recordUsage ⟨300, 30⟩ "2024-01-02" "T" 0
        (fun x => if x = "maki_k" then
          some ⟨"maki_k", "n", "c", 500, 500, 900, "2024-01-02", none, true, 1⟩
        else none)
        (fun x => if x = "maki_k" then some ⟨[], []⟩ else none) "maki_k").1.map
      (fun r => r.usedBonus)) = some true :=
  ⟨rfl, rfl⟩

/-- C4 witness: the amended behaviour at the counterexample's input,
with the untouched-ledger frame checked at `maki_x`. -/
theorem recordUsage_stale_cache_witness :
    (recordUsage ⟨300, 30⟩ "2024-01-02" "T" 0
        (fun x => if x = "maki_k" then
          some ⟨"maki_k", "n", "c", 500, 500, 900, "2024-01-02", none, true, 1⟩
        else none)
        (fun x => if x = "maki_k" then some ⟨[], []⟩ else none) "maki_k").1 =
      some ⟨{ checkAndResetDailyCount "2024-01-02"
          ⟨"maki_k", "n", "c", 500, 500, 900, "2024-01-02", none, true, 1⟩ with
        bonusRemaining := 1 - 1,
        totalUsage := 900 + 1,
        lastUsedAt := some "T" }, true⟩ ∧
    (recordUsage ⟨300, 30⟩ "2024-01-02" "T" 0
        (fun x => if x = "maki_k" then
          some ⟨"maki_k", "n", "c", 500, 500, 900, "2024-01-02", none, true, 1⟩
        else none)
        (fun x => if x = "maki_k" then some ⟨[], []⟩ else none) "maki_k").2.2
      "maki_x" =
      (fun x => if x = "maki_k" then
        some (⟨[], []⟩ : UserData) else none) "maki_x" :=
  recordUsage_stale_cache ⟨300, 30⟩ "2024-01-02" "T" 0
    (fun x => if x = "maki_k" then
      some ⟨"maki_k", "n", "c", 500, 500, 900, "2024-01-02", none, true, 1⟩
    else none)
    (fun x => if x = "maki_k" then some ⟨[], []⟩ else none) "maki_k" "maki_x"
    ⟨"maki_k", "n", "c", 500, 500, 900, "2024-01-02", none, true, 1⟩
    (by decide) (by decide) (by decide) (by decide)
